import Mathlib

/-!
Shallow embedding of the studyBuddy domain logic (`src/index.js`):
the in-memory identity store and request ledger, the matching engine
(shared courses, overlapping availability, suggested matches, classmate
search) and the session-request lifecycle (send, accept, decline, cancel),
together with proofs of the specified properties.
-/

namespace StudyBuddy

/-- A user record as stored in the in-memory `users` array
(`src/index.js` line 71). `password` holds the bcrypt hash. -/
structure User where
  id : Nat
  username : String
  password : String
  name : String
  major : String
  courses : List String
  availability : List String
deriving Repr, DecidableEq

/-- Session-request status strings: `pending`, `accepted`, `declined`,
`cancelled`. -/
inductive Status where
  | pending
  | accepted
  | declined
  | cancelled
deriving Repr, DecidableEq

/-- A session-request record as stored in the `sessionRequests` array
(`src/index.js` lines 254-262). -/
structure SessionRequest where
  id : Nat
  fromUserId : Nat
  toUserId : Nat
  course : String
  timeSlot : String
  status : Status
  createdAt : String
deriving Repr, DecidableEq

/-- The whole mutable application state: `users`, `nextUserId`,
`sessionRequests`, `nextRequestId` (`src/index.js` lines 10-14). -/
structure AppState where
  users : List User
  nextUserId : Nat
  sessionRequests : List SessionRequest
  nextRequestId : Nat
deriving Repr, DecidableEq

/-- The error outcomes surfaced by the handlers, per the spec's error
taxonomy. -/
inductive Err where
  | RecipientNotFound
  | SelfRequest
  | CourseNotShared
  | SlotNotMutuallyAvailable
  | RequestNotFound
  | NotAuthorized
  | InvalidState
  | InvalidEmailDomain
  | PasswordTooShort
  | PasswordMismatch
  | DuplicateUser
  | MissingRequiredField
deriving Repr, DecidableEq

/-! ### Matching engine -/

/-- `sharedCourses` from the search handler (`src/index.js` line 192):
`currentUser.courses.filter(c => u.courses.includes(c))`. -/
def sharedCourses (a b : User) : List String :=
  a.courses.filter (fun c => b.courses.contains c)

/-- `mutualCourses` from the dashboard handler (`src/index.js` line 108):
`user.courses.filter(course => otherUser.courses.includes(course))`. -/
def mutualCourses (self other : User) : List String :=
  self.courses.filter (fun c => other.courses.contains c)

/-- `overlappingAvailability` from the dashboard handler (`src/index.js`
line 109): `user.availability.filter(slot => otherUser.availability.includes(slot))`. -/
def overlappingAvailability (self other : User) : List String :=
  self.availability.filter (fun s => other.availability.contains s)

/-- A suggested-match view-model entry (`src/index.js` lines 112-119). -/
structure MatchEntry where
  id : Nat
  name : String
  major : String
  mutualCourses : List String
  overlappingAvailability : List String
  score : Nat
deriving Repr, DecidableEq

/-- The pre-sort stage of the suggested-matches pipeline
(`src/index.js` lines 105-122): `users.map(...).filter(Boolean)` —
for each candidate other than self, build an entry when both the mutual
courses and the overlapping availability are non-empty. -/
def matchEntries (self : User) (candidates : List User) : List MatchEntry :=
  candidates.filterMap (fun other =>
    if other.id == self.id then none
    else
      let mc := mutualCourses self other
      let ov := overlappingAvailability self other
      if mc.length > 0 && ov.length > 0 then
        some { id := other.id, name := other.name, major := other.major,
               mutualCourses := mc, overlappingAvailability := ov,
               score := mc.length + ov.length }
      else none)

/-- `suggestedMatches` (`src/index.js` line 122): the entries sorted by
`.sort((a, b) => b.score - a.score)`, a stable descending sort on `score`. -/
def suggestedMatches (self : User) (candidates : List User) : List MatchEntry :=
  (matchEntries self candidates).mergeSort (fun a b => b.score ≤ a.score)

/-! ### JavaScript string primitives

The JS handlers use `String.prototype.endsWith`, `trim` and `toLowerCase`.
They are modelled here over the character list of the Lean string, so
that every definition evaluates inside the kernel. -/

/-- JS `s.endsWith(suffixStr)`: the characters of `suffixStr` close `s`. -/
def jsEndsWith (s suffixStr : String) : Bool :=
  List.isSuffixOf suffixStr.data s.data

/-- JS `s.toLowerCase()` on the course/major strings: lowercase each
character. -/
def jsToLower (s : String) : String :=
  ⟨s.data.map Char.toLower⟩

/-- JS `s.trim()`: drop whitespace from both ends. -/
def jsTrim (s : String) : String :=
  ⟨((s.data.dropWhile Char.isWhitespace).reverse.dropWhile Char.isWhitespace).reverse⟩

/-! ### Classmate search (`POST /search`) -/

/-- A search result row (`src/index.js` lines 194-201). -/
structure SearchResult where
  id : Nat
  username : String
  name : String
  major : String
  sharedCourses : List String
  overlapAvailability : List String
deriving Repr, DecidableEq

/-- The major-filter stage of `POST /search` (`src/index.js` lines 204-208):
when a major filter with non-empty trimmed content is supplied, keep the
rows whose `major.toLowerCase()` equals the trimmed, lowercased filter;
otherwise leave the rows untouched. `none` models an absent form field. -/
def applyMajorFilter (majorFilter : Option String) (results : List SearchResult) : List SearchResult :=
  match majorFilter with
  | none => results
  | some mf0 =>
    if (jsTrim mf0).length > 0 then
      results.filter (fun r => jsToLower r.major == jsToLower (jsTrim mf0))
    else results

/-! ### Profile, course and availability management -/

/-- `POST /courses/add` (`src/index.js` lines 151-158): push the course
only when it is non-empty (truthy) and not already present. -/
def addCourse (u : User) (course : String) : User :=
  if course != "" && !u.courses.contains course then
    { u with courses := u.courses ++ [course] }
  else u

/-- `POST /courses/remove` (`src/index.js` lines 160-165). -/
def removeCourse (u : User) (course : String) : User :=
  { u with courses := u.courses.filter (fun c => c != course) }

/-- `POST /availability` (`src/index.js` lines 226-231): replace the
availability wholesale; a single string form value is wrapped into a
one-element array. -/
def setAvailability (u : User) (availability : List String ⊕ String) : User :=
  { u with availability :=
      match availability with
      | Sum.inl l => l
      | Sum.inr s => [s] }

/-! ### Registration (`POST /register`) -/

/-- `POST /register` (`src/index.js` lines 48-76). `hashedPassword` stands
for the externally computed bcrypt hash of `password`. Every validation
failure returns the state unchanged; success appends the new user and
bumps `nextUserId`. -/
def register (st : AppState) (username password confirmPassword firstName lastName major
    hashedPassword : String) : Except Err Unit × AppState :=
  if !(jsEndsWith username "@clemson.edu") then (.error .InvalidEmailDomain, st)
  else if password.length < 8 then (.error .PasswordTooShort, st)
  else if password != confirmPassword then (.error .PasswordMismatch, st)
  else if (st.users.find? (fun u => u.username == username)).isSome then (.error .DuplicateUser, st)
  else if firstName == "" || lastName == "" || major == "" then (.error .MissingRequiredField, st)
  else
    (.ok (), { st with
      users := st.users ++ [{ id := st.nextUserId, username := username,
                              password := hashedPassword,
                              name := firstName ++ " " ++ lastName, major := major,
                              courses := [], availability := [] }],
      nextUserId := st.nextUserId + 1 })

/-! ### Request lifecycle -/

/-- `POST /send-request` (`src/index.js` lines 234-268). `now` stands for
`new Date().toISOString()`. -/
def sendRequest (st : AppState) (fromUser : User) (recipientId : Nat)
    (course timeSlot now : String) : Except Err Unit × AppState :=
  match st.users.find? (fun u => u.id == recipientId) with
  | none => (.error .RecipientNotFound, st)
  | some toUser =>
    if toUser.id == fromUser.id then (.error .SelfRequest, st)
    else if !fromUser.courses.contains course || !toUser.courses.contains course then
      (.error .CourseNotShared, st)
    else if !(fromUser.availability.contains timeSlot && toUser.availability.contains timeSlot) then
      (.error .SlotNotMutuallyAvailable, st)
    else
      (.ok (), { st with
        sessionRequests := st.sessionRequests ++
          [{ id := st.nextRequestId, fromUserId := fromUser.id, toUserId := toUser.id,
             course := course, timeSlot := timeSlot, status := .pending, createdAt := now }],
        nextRequestId := st.nextRequestId + 1 })

/-- In-place mutation of the first ledger entry with the given id, as JS
`found.status = ...` mutates the object returned by
`sessionRequests.find(...)`. -/
def setStatusFirst : List SessionRequest → Nat → Status → List SessionRequest
  | [], _, _ => []
  | r :: rs, reqId, s =>
    if r.id == reqId then { r with status := s } :: rs
    else r :: setStatusFirst rs reqId s

/-- `POST /requests/:id/accept` (`src/index.js` lines 271-280). -/
def accept (st : AppState) (actingUserId reqId : Nat) : Except Err Unit × AppState :=
  match st.sessionRequests.find? (fun r => r.id == reqId) with
  | none => (.error .RequestNotFound, st)
  | some found =>
    if found.toUserId != actingUserId then (.error .NotAuthorized, st)
    else if found.status != .pending then (.error .InvalidState, st)
    else (.ok (), { st with sessionRequests := setStatusFirst st.sessionRequests reqId .accepted })

/-- `POST /requests/:id/decline` (`src/index.js` lines 283-292). -/
def decline (st : AppState) (actingUserId reqId : Nat) : Except Err Unit × AppState :=
  match st.sessionRequests.find? (fun r => r.id == reqId) with
  | none => (.error .RequestNotFound, st)
  | some found =>
    if found.toUserId != actingUserId then (.error .NotAuthorized, st)
    else if found.status != .pending then (.error .InvalidState, st)
    else (.ok (), { st with sessionRequests := setStatusFirst st.sessionRequests reqId .declined })

/-- `POST /sessions/:id/cancel` (`src/index.js` lines 303-314). -/
def cancel (st : AppState) (actingUserId reqId : Nat) : Except Err Unit × AppState :=
  match st.sessionRequests.find? (fun r => r.id == reqId) with
  | none => (.error .RequestNotFound, st)
  | some found =>
    if !(found.fromUserId == actingUserId || found.toUserId == actingUserId) then
      (.error .NotAuthorized, st)
    else if found.status != .accepted then (.error .InvalidState, st)
    else (.ok (), { st with sessionRequests := setStatusFirst st.sessionRequests reqId .cancelled })

/-- The status of the request the JS handlers operate on: the first ledger
entry with the given id. -/
def statusOf (st : AppState) (reqId : Nat) : Option Status :=
  (st.sessionRequests.find? (fun r => r.id == reqId)).map (fun r => r.status)

/-- One lifecycle action: accept, decline or cancel, by some acting user
on some request id. -/
inductive LifecycleOp where
  | acceptOp (actingUserId reqId : Nat)
  | declineOp (actingUserId reqId : Nat)
  | cancelOp (actingUserId reqId : Nat)
deriving Repr, DecidableEq

/-- Apply one lifecycle action to the state (the resulting state, whether
the action succeeded or failed). -/
def runOp (st : AppState) (op : LifecycleOp) : AppState :=
  match op with
  | .acceptOp u r => (accept st u r).2
  | .declineOp u r => (decline st u r).2
  | .cancelOp u r => (cancel st u r).2

/-- Apply a sequence of lifecycle actions in order. -/
def runOps (st : AppState) (ops : List LifecycleOp) : AppState :=
  ops.foldl runOp st

/-! ### JSON read views -/

/-- One row of `GET /users.json` (`src/index.js` lines 331-334). -/
structure MinimalUser where
  id : Nat
  username : String
  name : String
  major : String
deriving Repr, DecidableEq

/-- `GET /users.json` (`src/index.js` lines 331-334):
`users.map(u => ({ id, username, name, major }))`. -/
def usersJson (users : List User) : List MinimalUser :=
  users.map (fun u => { id := u.id, username := u.username, name := u.name, major := u.major })

/-- The `{ incoming, outgoing }` payload of `GET /requests.json`
(`src/index.js` lines 317-322). -/
structure RequestsView where
  incoming : List SessionRequest
  outgoing : List SessionRequest
deriving Repr, DecidableEq

/-- `GET /requests.json` (`src/index.js` lines 317-322). -/
def requestsJson (st : AppState) (user : User) : RequestsView :=
  { incoming := st.sessionRequests.filter (fun r => r.toUserId == user.id),
    outgoing := st.sessionRequests.filter (fun r => r.fromUserId == user.id) }

/-! ## Theorems -/

/-- Sorting with the dashboard comparator preserves, for each score value,
the sublist of entries carrying that score: this is the stability of the
sort. -/
theorem filter_mergeSort_of_key (l : List MatchEntry) (s : Nat) :
    ((l.mergeSort (fun a b => b.score ≤ a.score)).filter (fun m => m.score == s))
      = l.filter (fun m => m.score == s) := by
  have htrans : ∀ a b c : MatchEntry, (decide (b.score ≤ a.score)) →
      (decide (c.score ≤ b.score)) → (decide (c.score ≤ a.score)) := by
    intro a b c hab hbc
    simp only [decide_eq_true_eq] at *
    omega
  have htotal : ∀ a b : MatchEntry,
      (decide (b.score ≤ a.score)) || (decide (a.score ≤ b.score)) := by
    intro a b
    simp only [Bool.or_eq_true, decide_eq_true_eq]
    omega
  have h1 : List.Sublist (l.filter (fun m => m.score == s)) l := List.filter_sublist l
  have h2 : (l.filter (fun m => m.score == s)).Pairwise
      (fun a b => decide (b.score ≤ a.score)) := by
    rw [List.pairwise_iff_forall_sublist]
    intro a b hs
    have ha : a ∈ l.filter (fun m => m.score == s) := hs.subset (by simp)
    have hb : b ∈ l.filter (fun m => m.score == s) := hs.subset (by simp)
    have ha' := List.of_mem_filter ha
    have hb' := List.of_mem_filter hb
    simp only [beq_iff_eq] at ha' hb'
    simp [ha', hb']
  have h3 := List.sublist_mergeSort htrans htotal h2 h1
  have h4 : List.Sublist (l.filter (fun m => m.score == s))
      ((l.mergeSort (fun a b => b.score ≤ a.score)).filter (fun m => m.score == s)) := by
    have h5 := h3.filter (fun m => m.score == s)
    have h6 : (l.filter (fun m => m.score == s)).filter (fun m => m.score == s)
        = l.filter (fun m => m.score == s) := by
      apply List.filter_eq_self.mpr
      intro a ha
      exact (List.mem_filter.mp ha).2
    rwa [h6] at h5
  have hlen : ((l.mergeSort (fun a b => b.score ≤ a.score)).filter
      (fun m => m.score == s)).length = (l.filter (fun m => m.score == s)).length :=
    ((List.mergeSort_perm l _).filter _).length_eq
  exact (h4.eq_of_length hlen.symm).symm

/-- Shape of any entry produced by the pre-sort suggested-matches stage:
its id differs from self's, both component lists are non-empty, and the
score is the sum of their lengths. -/
theorem mem_matchEntries {self : User} {candidates : List User} {m : MatchEntry}
    (h : m ∈ matchEntries self candidates) :
    m.id ≠ self.id ∧ m.mutualCourses ≠ [] ∧ m.overlappingAvailability ≠ [] ∧
      m.score = m.mutualCourses.length + m.overlappingAvailability.length := by
  simp only [matchEntries, List.mem_filterMap] at h
  obtain ⟨other, -, hf⟩ := h
  split at hf
  · exact absurd hf (by simp)
  · split at hf
    · rename_i hid hlen
      obtain rfl := Option.some.inj hf
      simp only [beq_iff_eq] at hid
      simp only [Bool.and_eq_true, decide_eq_true_eq] at hlen
      refine ⟨hid, ?_, ?_, rfl⟩
      · exact List.ne_nil_of_length_pos (show (0:Nat) < (mutualCourses self other).length by omega)
      · exact List.ne_nil_of_length_pos
          (show (0:Nat) < (overlappingAvailability self other).length by omega)
    · exact absurd hf (by simp)

/-- C1. `suggestedMatches(self, candidates)` never includes `self`; every
included entry has non-empty mutual courses and non-empty availability
overlap and carries `score = |mutual| + |overlap|`; the output is sorted
descending by score; it is a permutation of the pre-sort entry list; and
for every score value the entries carrying it keep their original
enumeration order (stable ties). -/
theorem suggestedMatches_spec (self : User) (candidates : List User) :
    (∀ m ∈ suggestedMatches self candidates, m.id ≠ self.id)
  ∧ (∀ m ∈ suggestedMatches self candidates,
        m.mutualCourses ≠ [] ∧ m.overlappingAvailability ≠ [] ∧
        m.score = m.mutualCourses.length + m.overlappingAvailability.length)
  ∧ (suggestedMatches self candidates).Pairwise (fun a b => b.score ≤ a.score)
  ∧ List.Perm (suggestedMatches self candidates) (matchEntries self candidates)
  ∧ (∀ s : Nat, (suggestedMatches self candidates).filter (fun m => m.score == s)
        = (matchEntries self candidates).filter (fun m => m.score == s)) := by
  refine ⟨?_, ?_, ?_, ?_, ?_⟩
  · intro m hm
    exact (mem_matchEntries (List.mem_mergeSort.mp hm)).1
  · intro m hm
    exact (mem_matchEntries (List.mem_mergeSort.mp hm)).2
  · have htrans : ∀ a b c : MatchEntry, (decide (b.score ≤ a.score)) →
        (decide (c.score ≤ b.score)) → (decide (c.score ≤ a.score)) := by
      intro a b c hab hbc
      simp only [decide_eq_true_eq] at *
      omega
    have htotal : ∀ a b : MatchEntry,
        (decide (b.score ≤ a.score)) || (decide (a.score ≤ b.score)) := by
      intro a b
      simp only [Bool.or_eq_true, decide_eq_true_eq]
      omega
    have h := List.sorted_mergeSort htrans htotal (matchEntries self candidates)
    exact h.imp (by intro a b h; simpa using h)
  · exact List.mergeSort_perm _ _
  · intro s
    exact filter_mergeSort_of_key _ s

/-- Concrete users exercised by the witnesses below. -/
def demoA : User :=
  { id := 1, username := "a@clemson.edu", password := "hashA", name := "A", major := "CS",
    courses := ["MATH1", "ENG1"], availability := ["T1", "T2"] }

/-- Second concrete user for the witnesses. -/
def demoB : User :=
  { id := 2, username := "b@clemson.edu", password := "hashB", name := "B", major := "ECE",
    courses := ["MATH1"], availability := ["T1"] }

/-- Witness for C1: at the concrete dashboard of `demoA` over candidates
`[demoA, demoB]`, the single suggested match is the entry for `demoB`, and
the theorem applies to it. -/
theorem suggestedMatches_spec_witness :
    ({ id := 2, name := "B", major := "ECE", mutualCourses := ["MATH1"],
       overlappingAvailability := ["T1"], score := 2 } : MatchEntry).id ≠ demoA.id := by
  apply (suggestedMatches_spec demoA [demoA, demoB]).1
  have h : matchEntries demoA [demoA, demoB]
      = [{ id := 2, name := "B", major := "ECE", mutualCourses := ["MATH1"],
           overlappingAvailability := ["T1"], score := 2 }] := by decide
  rw [suggestedMatches, h, List.mergeSort_singleton]
  simp

/-- Looking up the updated id after `setStatusFirst`, we get the request
that `find?` found before, with its status replaced. -/
theorem find_setStatusFirst_self (l : List SessionRequest) (i : Nat) (s : Status) :
    (setStatusFirst l i s).find? (fun r => r.id == i)
      = (l.find? (fun r => r.id == i)).map (fun r => { r with status := s }) := by
  induction l with
  | nil => rfl
  | cons r rs ih =>
    by_cases h : r.id == i
    · simp [setStatusFirst, h, List.find?_cons]
    · simp only [setStatusFirst, h, if_false, Bool.false_eq_true]
      rw [List.find?_cons_of_neg _ (by simpa using h), List.find?_cons_of_neg _ (by simpa using h)]
      exact ih

/-- `setStatusFirst` leaves the lookup of every other id untouched. -/
theorem find_setStatusFirst_other (l : List SessionRequest) (i j : Nat) (s : Status)
    (hij : j ≠ i) :
    (setStatusFirst l i s).find? (fun r => r.id == j) = l.find? (fun r => r.id == j) := by
  induction l with
  | nil => rfl
  | cons r rs ih =>
    by_cases h : r.id == i
    · have hrj : ¬(r.id == j) := by
        simp only [beq_iff_eq] at h ⊢
        omega
      simp only [setStatusFirst, h, if_true]
      rw [List.find?_cons_of_neg _ (by simpa using hrj),
        List.find?_cons_of_neg _ (by simpa using hrj)]
    · simp only [setStatusFirst, h, if_false, Bool.false_eq_true]
      by_cases hrj : r.id == j
      · rw [List.find?_cons_of_pos _ (by simpa using hrj),
          List.find?_cons_of_pos _ (by simpa using hrj)]
      · rw [List.find?_cons_of_neg _ (by simpa using hrj),
          List.find?_cons_of_neg _ (by simpa using hrj)]
        exact ih

/-- One lifecycle action can change a non-pending status only from
`accepted` to `cancelled`. -/
theorem runOp_statusOf (st : AppState) (op : LifecycleOp) (reqId : Nat) (s : Status)
    (h : statusOf st reqId = some s) (hnp : s ≠ .pending) :
    statusOf (runOp st op) reqId = some s ∨
      (s = .accepted ∧ statusOf (runOp st op) reqId = some .cancelled) := by
  cases op with
  | acceptOp u r =>
    simp only [runOp, accept]
    cases hfind : st.sessionRequests.find? (fun x => x.id == r) with
    | none => left; simpa using h
    | some found =>
      simp only
      split_ifs with h1 h2
      · left; simpa using h
      · left; simpa using h
      · by_cases hr : reqId = r
        · subst hr
          have hsf : statusOf st reqId = some found.status := by
            simp [statusOf, hfind]
          rw [h] at hsf
          exfalso
          apply hnp
          rw [show s = found.status from Option.some.inj hsf]
          simpa using h2
        · left
          rw [← h]
          simp only [statusOf]
          rw [find_setStatusFirst_other _ _ _ _ hr]
  | declineOp u r =>
    simp only [runOp, decline]
    cases hfind : st.sessionRequests.find? (fun x => x.id == r) with
    | none => left; simpa using h
    | some found =>
      simp only
      split_ifs with h1 h2
      · left; simpa using h
      · left; simpa using h
      · by_cases hr : reqId = r
        · subst hr
          have hsf : statusOf st reqId = some found.status := by
            simp [statusOf, hfind]
          rw [h] at hsf
          exfalso
          apply hnp
          rw [show s = found.status from Option.some.inj hsf]
          simpa using h2
        · left
          rw [← h]
          simp only [statusOf]
          rw [find_setStatusFirst_other _ _ _ _ hr]
  | cancelOp u r =>
    simp only [runOp, cancel]
    cases hfind : st.sessionRequests.find? (fun x => x.id == r) with
    | none => left; simpa using h
    | some found =>
      simp only
      split_ifs with h1 h2
      · left; simpa using h
      · left; simpa using h
      · by_cases hr : reqId = r
        · subst hr
          have hsf : statusOf st reqId = some found.status := by
            simp [statusOf, hfind]
          rw [h] at hsf
          have hs : s = found.status := Option.some.inj hsf
          right
          constructor
          · rw [hs]
            simpa using h2
          · simp only [statusOf]
            rw [find_setStatusFirst_self, hfind]
            rfl
        · left
          rw [← h]
          simp only [statusOf]
          rw [find_setStatusFirst_other _ _ _ _ hr]

/-- A sequence of lifecycle actions can change a non-pending status only
from `accepted` to `cancelled`. -/
theorem runOps_statusOf (ops : List LifecycleOp) (st : AppState) (reqId : Nat) (s : Status)
    (h : statusOf st reqId = some s) (hnp : s ≠ .pending) :
    statusOf (runOps st ops) reqId = some s ∨
      (s = .accepted ∧ statusOf (runOps st ops) reqId = some .cancelled) := by
  induction ops generalizing st s with
  | nil => left; simpa [runOps] using h
  | cons op ops ih =>
    have hcons : runOps st (op :: ops) = runOps (runOp st op) ops := rfl
    rw [hcons]
    rcases runOp_statusOf st op reqId s h hnp with h1 | ⟨hacc, h2⟩
    · exact ih (runOp st op) s h1 hnp
    · rcases ih (runOp st op) .cancelled h2 (by simp) with h3 | ⟨hc, h4⟩
      · right; exact ⟨hacc, h3⟩
      · exact absurd hc (by simp)

/-- C2. Under every sequence of accept/decline/cancel actions, a request
whose status is not `pending` keeps that status, with the single exception
`accepted → cancelled`; `declined` and `cancelled` admit no outgoing
transition; and the only request creation, `sendRequest`, appends a
request whose initial status is `pending`. -/
theorem request_status_transitions :
    (∀ (st : AppState) (ops : List LifecycleOp) (reqId : Nat) (s : Status),
        statusOf st reqId = some s → s ≠ .pending →
        statusOf (runOps st ops) reqId = some s ∨
          (s = .accepted ∧ statusOf (runOps st ops) reqId = some .cancelled))
  ∧ (∀ (st : AppState) (ops : List LifecycleOp) (reqId : Nat),
        statusOf st reqId = some .declined →
        statusOf (runOps st ops) reqId = some .declined)
  ∧ (∀ (st : AppState) (ops : List LifecycleOp) (reqId : Nat),
        statusOf st reqId = some .cancelled →
        statusOf (runOps st ops) reqId = some .cancelled)
  ∧ (∀ (st : AppState) (fromUser : User) (recipientId : Nat) (course timeSlot now : String),
        (sendRequest st fromUser recipientId course timeSlot now).2.sessionRequests
            = st.sessionRequests
        ∨ ∃ req : SessionRequest, req.status = .pending ∧
            (sendRequest st fromUser recipientId course timeSlot now).2.sessionRequests
              = st.sessionRequests ++ [req]) := by
  refine ⟨fun st ops reqId s h hnp => runOps_statusOf ops st reqId s h hnp, ?_, ?_, ?_⟩
  · intro st ops reqId h
    rcases runOps_statusOf ops st reqId .declined h (by simp) with h1 | ⟨hc, _⟩
    · exact h1
    · exact absurd hc (by simp)
  · intro st ops reqId h
    rcases runOps_statusOf ops st reqId .cancelled h (by simp) with h1 | ⟨hc, _⟩
    · exact h1
    · exact absurd hc (by simp)
  · intro st fromUser recipientId course timeSlot now
    simp only [sendRequest]
    cases hfind : st.users.find? (fun u => u.id == recipientId) with
    | none => left; rfl
    | some toUser =>
      simp only
      split_ifs with h1 h2 h3
      · left; rfl
      · left; rfl
      · left; rfl
      · right
        exact ⟨_, rfl, rfl⟩

/-- A concrete declined request for the C2 witness. -/
def demoDeclinedReq : SessionRequest :=
  { id := 1, fromUserId := 1, toUserId := 2, course := "MATH1", timeSlot := "T1",
    status := .declined, createdAt := "2024-01-01T00:00:00.000Z" }

/-- A concrete state holding the declined request. -/
def demoStateDeclined : AppState :=
  { users := [demoA, demoB], nextUserId := 3,
    sessionRequests := [demoDeclinedReq], nextRequestId := 2 }

/-- Witness for C2: a concrete declined request stays declined across a
concrete accept attempt. -/
theorem request_status_transitions_witness :
    statusOf (runOps demoStateDeclined [.acceptOp 2 1]) 1 = some .declined :=
  request_status_transitions.2.1 demoStateDeclined [.acceptOp 2 1] 1 (by decide)

/-- C3. `sendRequest` fails with `RecipientNotFound` exactly when no user
has the recipient id; with the recipient found, it fails with
`SelfRequest` exactly when the recipient is the sender, then with
`CourseNotShared` exactly when either party lacks the course, then with
`SlotNotMutuallyAvailable` exactly when the slot is not in both
availabilities; when all checks pass it appends a new `pending` request. -/
theorem sendRequest_errors (st : AppState) (fromUser : User) (recipientId : Nat)
    (course timeSlot now : String) :
    ((sendRequest st fromUser recipientId course timeSlot now).1
        = .error .RecipientNotFound ↔ ∀ u ∈ st.users, u.id ≠ recipientId)
  ∧ (∀ toUser, st.users.find? (fun u => u.id == recipientId) = some toUser →
      (((sendRequest st fromUser recipientId course timeSlot now).1
          = .error .SelfRequest ↔ toUser.id = fromUser.id)
      ∧ (toUser.id ≠ fromUser.id →
          ((sendRequest st fromUser recipientId course timeSlot now).1
            = .error .CourseNotShared
            ↔ ¬(course ∈ fromUser.courses ∧ course ∈ toUser.courses)))
      ∧ (toUser.id ≠ fromUser.id → course ∈ fromUser.courses → course ∈ toUser.courses →
          ((sendRequest st fromUser recipientId course timeSlot now).1
            = .error .SlotNotMutuallyAvailable
            ↔ ¬(timeSlot ∈ fromUser.availability ∧ timeSlot ∈ toUser.availability)))
      ∧ (toUser.id ≠ fromUser.id → course ∈ fromUser.courses → course ∈ toUser.courses →
          timeSlot ∈ fromUser.availability → timeSlot ∈ toUser.availability →
          (sendRequest st fromUser recipientId course timeSlot now).1 = .ok () ∧
          (sendRequest st fromUser recipientId course timeSlot now).2.sessionRequests
            = st.sessionRequests ++
              [{ id := st.nextRequestId, fromUserId := fromUser.id, toUserId := toUser.id,
                 course := course, timeSlot := timeSlot, status := .pending,
                 createdAt := now }]))) := by
  cases hfind : st.users.find? (fun u => u.id == recipientId) with
  | none =>
    constructor
    · simp only [sendRequest, hfind]
      constructor
      · intro _ u hu
        have := List.find?_eq_none.mp hfind u hu
        simpa using this
      · intro _; trivial
    · intro toUser h
      exact absurd h (by simp)
  | some toUser' =>
    have hmem := List.mem_of_find?_eq_some hfind
    have hid : toUser'.id = recipientId := by
      have := List.find?_some hfind
      simpa using this
    constructor
    · constructor
      · intro hres
        exfalso
        revert hres
        simp only [sendRequest, hfind]
        split_ifs <;> simp
      · intro hall
        exact absurd hid (hall toUser' hmem)
    · intro toUser h
      obtain rfl := Option.some.inj h
      refine ⟨?_, ?_, ?_, ?_⟩
      · simp only [sendRequest, hfind]
        split_ifs with h1 h2 h3 <;> simp_all [List.contains]
      · intro hne
        simp only [sendRequest, hfind]
        split_ifs with h1 h2 h3 <;> simp_all [List.contains] <;> tauto
      · intro hne hc1 hc2
        simp only [sendRequest, hfind]
        split_ifs with h1 h2 h3 <;> simp_all [List.contains] <;> tauto
      · intro hne hc1 hc2 ha1 ha2
        simp only [sendRequest, hfind]
        split_ifs with h1 h2 h3 <;> simp_all [List.contains]

/-- Witness for C3: `demoA` asking `demoB` for course `ENG1`, which
`demoB` does not take, concretely fails with `CourseNotShared`. -/
theorem sendRequest_errors_witness :
    (sendRequest demoStateDeclined demoA 2 "ENG1" "T1" "now").1
      = .error .CourseNotShared := by
  have h := (sendRequest_errors demoStateDeclined demoA 2 "ENG1" "T1" "now").2 demoB (by decide)
  exact (h.2.1 (by decide)).mpr (by decide)

/-- C4. `accept` and `decline` fail with `RequestNotFound` exactly when no
request has the id; with the request found, they fail with `NotAuthorized`
exactly when the acting user is not the recipient, then with
`InvalidState` exactly when the status is not `pending`; on success they
set the status to `accepted` / `declined`, and a second accept or decline
of the same request by the same user fails with `InvalidState`. -/
theorem accept_decline_errors (st : AppState) (actingUserId reqId : Nat) :
    ((accept st actingUserId reqId).1 = .error .RequestNotFound ↔
        ∀ r ∈ st.sessionRequests, r.id ≠ reqId)
  ∧ ((decline st actingUserId reqId).1 = .error .RequestNotFound ↔
        ∀ r ∈ st.sessionRequests, r.id ≠ reqId)
  ∧ (∀ found, st.sessionRequests.find? (fun r => r.id == reqId) = some found →
      (((accept st actingUserId reqId).1 = .error .NotAuthorized
          ↔ found.toUserId ≠ actingUserId)
      ∧ ((decline st actingUserId reqId).1 = .error .NotAuthorized
          ↔ found.toUserId ≠ actingUserId)
      ∧ (found.toUserId = actingUserId →
          (((accept st actingUserId reqId).1 = .error .InvalidState
              ↔ found.status ≠ .pending)
          ∧ ((decline st actingUserId reqId).1 = .error .InvalidState
              ↔ found.status ≠ .pending)))
      ∧ (found.toUserId = actingUserId → found.status = .pending →
          ((accept st actingUserId reqId).1 = .ok ()
          ∧ statusOf (accept st actingUserId reqId).2 reqId = some .accepted
          ∧ (decline st actingUserId reqId).1 = .ok ()
          ∧ statusOf (decline st actingUserId reqId).2 reqId = some .declined))
      ∧ (found.toUserId = actingUserId → found.status = .pending →
          ((accept (accept st actingUserId reqId).2 actingUserId reqId).1
              = .error .InvalidState
          ∧ (decline (decline st actingUserId reqId).2 actingUserId reqId).1
              = .error .InvalidState)))) := by
  cases hfind : st.sessionRequests.find? (fun r => r.id == reqId) with
  | none =>
    refine ⟨?_, ?_, ?_⟩
    · simp only [accept, hfind]
      constructor
      · intro _ r hr
        have := List.find?_eq_none.mp hfind r hr
        simpa using this
      · intro _; trivial
    · simp only [decline, hfind]
      constructor
      · intro _ r hr
        have := List.find?_eq_none.mp hfind r hr
        simpa using this
      · intro _; trivial
    · intro found h
      exact absurd h (by simp)
  | some found' =>
    have hmem := List.mem_of_find?_eq_some hfind
    have hid : found'.id = reqId := by
      have := List.find?_some hfind
      simpa using this
    refine ⟨?_, ?_, ?_⟩
    · constructor
      · intro hres
        exfalso
        revert hres
        simp only [accept, hfind]
        split_ifs <;> simp
      · intro hall
        exact absurd hid (hall found' hmem)
    · constructor
      · intro hres
        exfalso
        revert hres
        simp only [decline, hfind]
        split_ifs <;> simp
      · intro hall
        exact absurd hid (hall found' hmem)
    · intro found h
      obtain rfl := Option.some.inj h
      refine ⟨?_, ?_, ?_, ?_, ?_⟩
      · simp only [accept, hfind]
        split_ifs with h1 h2 <;> simp_all
      · simp only [decline, hfind]
        split_ifs with h1 h2 <;> simp_all
      · intro hauth
        constructor
        · simp only [accept, hfind]
          split_ifs with h1 h2 <;> simp_all
        · simp only [decline, hfind]
          split_ifs with h1 h2 <;> simp_all
      · intro hauth hp
        have hacc : accept st actingUserId reqId
            = (.ok (), { st with sessionRequests := setStatusFirst st.sessionRequests reqId .accepted }) := by
          simp only [accept, hfind]
          split_ifs with h1 h2 <;> simp_all
        have hdec : decline st actingUserId reqId
            = (.ok (), { st with sessionRequests := setStatusFirst st.sessionRequests reqId .declined }) := by
          simp only [decline, hfind]
          split_ifs with h1 h2 <;> simp_all
        refine ⟨by rw [hacc], ?_, by rw [hdec], ?_⟩
        · rw [hacc]
          simp only [statusOf]
          rw [find_setStatusFirst_self, hfind]
          rfl
        · rw [hdec]
          simp only [statusOf]
          rw [find_setStatusFirst_self, hfind]
          rfl
      · intro hauth hp
        have hacc : accept st actingUserId reqId
            = (.ok (), { st with sessionRequests := setStatusFirst st.sessionRequests reqId .accepted }) := by
          simp only [accept, hfind]
          split_ifs with h1 h2 <;> simp_all
        have hdec : decline st actingUserId reqId
            = (.ok (), { st with sessionRequests := setStatusFirst st.sessionRequests reqId .declined }) := by
          simp only [decline, hfind]
          split_ifs with h1 h2 <;> simp_all
        constructor
        · rw [hacc]
          have hfind2 : (setStatusFirst st.sessionRequests reqId .accepted).find?
              (fun r => r.id == reqId) = some { found' with status := .accepted } := by
            rw [find_setStatusFirst_self, hfind]
            rfl
          simp only [accept, hfind2]
          split_ifs with h1 h2 <;> simp_all
        · rw [hdec]
          have hfind2 : (setStatusFirst st.sessionRequests reqId .declined).find?
              (fun r => r.id == reqId) = some { found' with status := .declined } := by
            rw [find_setStatusFirst_self, hfind]
            rfl
          simp only [decline, hfind2]
          split_ifs with h1 h2 <;> simp_all


/-- A concrete pending request for the C4 witness. -/
def demoPendingReq : SessionRequest :=
  { id := 1, fromUserId := 1, toUserId := 2, course := "MATH1", timeSlot := "T1",
    status := .pending, createdAt := "2024-01-01T00:00:00.000Z" }

/-- A concrete state holding the pending request. -/
def demoStatePending : AppState :=
  { users := [demoA, demoB], nextUserId := 3,
    sessionRequests := [demoPendingReq], nextRequestId := 2 }

/-- Witness for C4: accepting the concrete pending request twice makes the
second call fail with `InvalidState`. -/
theorem accept_decline_errors_witness :
    (accept (accept demoStatePending 2 1).2 2 1).1 = .error .InvalidState := by
  have h := (accept_decline_errors demoStatePending 2 1).2.2 demoPendingReq (by decide)
  exact (h.2.2.2.2 (by decide) (by decide)).1

/-- C5. `cancel` fails with `RequestNotFound` exactly when no request has
the id; with the request found, it fails with `NotAuthorized` exactly when
the acting user is neither `fromUserId` nor `toUserId`, regardless of
status; by a participant it fails with `InvalidState` exactly when the
status is not `accepted` (in particular when it is `pending`); by a
participant of an accepted request it succeeds and the status becomes
`cancelled`. -/
theorem cancel_errors (st : AppState) (actingUserId reqId : Nat) :
    ((cancel st actingUserId reqId).1 = .error .RequestNotFound ↔
        ∀ r ∈ st.sessionRequests, r.id ≠ reqId)
  ∧ (∀ found, st.sessionRequests.find? (fun r => r.id == reqId) = some found →
      (((cancel st actingUserId reqId).1 = .error .NotAuthorized
          ↔ ¬(found.fromUserId = actingUserId ∨ found.toUserId = actingUserId))
      ∧ ((found.fromUserId = actingUserId ∨ found.toUserId = actingUserId) →
          ((cancel st actingUserId reqId).1 = .error .InvalidState
            ↔ found.status ≠ .accepted))
      ∧ ((found.fromUserId = actingUserId ∨ found.toUserId = actingUserId) →
          found.status = .pending →
          (cancel st actingUserId reqId).1 = .error .InvalidState)
      ∧ ((found.fromUserId = actingUserId ∨ found.toUserId = actingUserId) →
          found.status = .accepted →
          ((cancel st actingUserId reqId).1 = .ok ()
          ∧ statusOf (cancel st actingUserId reqId).2 reqId = some .cancelled)))) := by
  cases hfind : st.sessionRequests.find? (fun r => r.id == reqId) with
  | none =>
    constructor
    · simp only [cancel, hfind]
      constructor
      · intro _ r hr
        have := List.find?_eq_none.mp hfind r hr
        simpa using this
      · intro _; trivial
    · intro found h
      exact absurd h (by simp)
  | some found' =>
    have hmem := List.mem_of_find?_eq_some hfind
    have hid : found'.id = reqId := by
      have := List.find?_some hfind
      simpa using this
    constructor
    · constructor
      · intro hres
        exfalso
        revert hres
        simp only [cancel, hfind]
        split_ifs <;> simp
      · intro hall
        exact absurd hid (hall found' hmem)
    · intro found h
      obtain rfl := Option.some.inj h
      refine ⟨?_, ?_, ?_, ?_⟩
      · simp only [cancel, hfind]
        split_ifs with h1 h2 <;> simp_all
      · intro hpart
        simp only [cancel, hfind]
        split_ifs with h1 h2 <;> simp_all
      · intro hpart hp
        simp only [cancel, hfind]
        split_ifs with h1 h2 <;> simp_all
      · intro hpart hacc
        have hc : cancel st actingUserId reqId
            = (.ok (), { st with
                sessionRequests := setStatusFirst st.sessionRequests reqId .cancelled }) := by
          simp only [cancel, hfind]
          split_ifs with h1 h2 <;> simp_all
        refine ⟨by rw [hc], ?_⟩
        rw [hc]
        simp only [statusOf]
        rw [find_setStatusFirst_self, hfind]
        rfl


/-- Witness for C5: cancelling the concrete pending request by its
recipient fails with `InvalidState`. -/
theorem cancel_errors_witness :
    (cancel demoStatePending 2 1).1 = .error .InvalidState := by
  have h := (cancel_errors demoStatePending 2 1).2 demoPendingReq (by decide)
  exact h.2.2.1 (by decide) (by decide)

/-- C6. Validate-then-mutate: whenever registration, sendRequest, accept,
decline or cancel returns an error, the state (identity store and request
ledger alike) is exactly what it was before the call. -/
theorem op_failure_atomic :
    (∀ (st : AppState) (username password confirmPassword firstName lastName major
        hashed : String) (e : Err),
        (register st username password confirmPassword firstName lastName major hashed).1
          = .error e →
        (register st username password confirmPassword firstName lastName major hashed).2 = st)
  ∧ (∀ (st : AppState) (fromUser : User) (recipientId : Nat) (course timeSlot now : String)
        (e : Err),
        (sendRequest st fromUser recipientId course timeSlot now).1 = .error e →
        (sendRequest st fromUser recipientId course timeSlot now).2 = st)
  ∧ (∀ (st : AppState) (u r : Nat) (e : Err),
        (accept st u r).1 = .error e → (accept st u r).2 = st)
  ∧ (∀ (st : AppState) (u r : Nat) (e : Err),
        (decline st u r).1 = .error e → (decline st u r).2 = st)
  ∧ (∀ (st : AppState) (u r : Nat) (e : Err),
        (cancel st u r).1 = .error e → (cancel st u r).2 = st) := by
  refine ⟨?_, ?_, ?_, ?_, ?_⟩
  · intro st username password confirmPassword firstName lastName major hashed e h
    revert h
    simp only [register]
    split_ifs <;> intro h <;> first | rfl | simp at h
  · intro st fromUser recipientId course timeSlot now e h
    revert h
    cases hfind : st.users.find? (fun u => u.id == recipientId) with
    | none => intro h; simp [sendRequest, hfind]
    | some toUser =>
      simp only [sendRequest, hfind]
      split_ifs <;> intro h <;> first | rfl | simp at h
  · intro st u r e h
    revert h
    cases hfind : st.sessionRequests.find? (fun x => x.id == r) with
    | none => intro h; simp [accept, hfind]
    | some found =>
      simp only [accept, hfind]
      split_ifs <;> intro h <;> first | rfl | simp at h
  · intro st u r e h
    revert h
    cases hfind : st.sessionRequests.find? (fun x => x.id == r) with
    | none => intro h; simp [decline, hfind]
    | some found =>
      simp only [decline, hfind]
      split_ifs <;> intro h <;> first | rfl | simp at h
  · intro st u r e h
    revert h
    cases hfind : st.sessionRequests.find? (fun x => x.id == r) with
    | none => intro h; simp [cancel, hfind]
    | some found =>
      simp only [cancel, hfind]
      split_ifs <;> intro h <;> first | rfl | simp at h


/-- Witness for C6: a concrete registration with a too-short password
leaves the concrete state untouched. -/
theorem op_failure_atomic_witness :
    (register demoStatePending "x@clemson.edu" "short" "short" "X" "Y" "CS" "hash").2
      = demoStatePending :=
  op_failure_atomic.1 demoStatePending "x@clemson.edu" "short" "short" "X" "Y" "CS" "hash"
    .PasswordTooShort (by rfl)

/-- C7. `sharedCourses` is symmetric as a set (same members in both
directions); it is duplicate-free whenever the first user's course list
is, and under the course-management operations (`addCourse`,
`removeCourse`, starting from the empty list) course lists stay
duplicate-free, so for users of the store the two directions are even
permutations of each other. -/
theorem sharedCourses_symm_nodup :
    (∀ (a b : User) (c : String), c ∈ sharedCourses a b ↔ c ∈ sharedCourses b a)
  ∧ (∀ a b : User, a.courses.Nodup → (sharedCourses a b).Nodup)
  ∧ (∀ a b : User, a.courses.Nodup → b.courses.Nodup →
        List.Perm (sharedCourses a b) (sharedCourses b a))
  ∧ (∀ (u : User) (course : String), u.courses.Nodup → ((addCourse u course).courses).Nodup)
  ∧ (∀ (u : User) (course : String), u.courses.Nodup →
        ((removeCourse u course).courses).Nodup) := by
  have hmem : ∀ (a b : User) (c : String), c ∈ sharedCourses a b ↔ c ∈ sharedCourses b a := by
    intro a b c
    simp only [sharedCourses, List.mem_filter, List.contains, List.elem_eq_mem,
      decide_eq_true_eq]
    tauto
  have hnd : ∀ a b : User, a.courses.Nodup → (sharedCourses a b).Nodup := by
    intro a b h
    exact h.filter _
  refine ⟨hmem, hnd, ?_, ?_, ?_⟩
  · intro a b ha hb
    exact (List.perm_ext_iff_of_nodup (hnd a b ha) (hnd b a hb)).mpr (fun c => hmem a b c)
  · intro u course h
    simp only [addCourse]
    split_ifs with hc
    · simp only [Bool.and_eq_true, bne_iff_ne, Bool.not_eq_true'] at hc
      have hnotmem : course ∉ u.courses := by
        simpa [List.contains] using hc.2
      simp [List.nodup_append, h, hnotmem, List.Disjoint]
      intro x hx hx'
      subst hx'
      exact hnotmem hx
    · exact h
  · intro u course h
    exact h.filter _


/-- Witness for C7: at the concrete users `demoA`, `demoB`, the two
directions of `sharedCourses` are permutations of each other. -/
theorem sharedCourses_symm_nodup_witness :
    List.Perm (sharedCourses demoA demoB) (sharedCourses demoB demoA) :=
  sharedCourses_symm_nodup.2.2.1 demoA demoB (by decide) (by decide)

/-- A concrete search row with major `CS`. -/
def rowCS : SearchResult :=
  { id := 1, username := "a@clemson.edu", name := "A", major := "CS",
    sharedCourses := ["MATH1"], overlapAvailability := ["T1"] }

/-- A concrete search row with major `ECE`. -/
def rowECE : SearchResult :=
  { id := 2, username := "b@clemson.edu", name := "B", major := "ECE",
    sharedCourses := [], overlapAvailability := [] }

/-- C8. The major filter is a no-op when absent or blank after trimming;
when given, it keeps exactly the rows whose major equals the trimmed
filter case-insensitively (an exact match, not substring): concretely,
filter `"cs"` keeps a row with major `"CS"` and drops one with `"ECE"`. -/
theorem majorFilter_exact_case_insensitive :
    (∀ results, applyMajorFilter none results = results)
  ∧ (∀ (mf : String) (results : List SearchResult), jsTrim mf = "" →
        applyMajorFilter (some mf) results = results)
  ∧ (∀ (mf : String) (results : List SearchResult) (r : SearchResult), jsTrim mf ≠ "" →
        (r ∈ applyMajorFilter (some mf) results ↔
          r ∈ results ∧ jsToLower r.major = jsToLower (jsTrim mf)))
  ∧ applyMajorFilter (some "cs") [rowCS, rowECE] = [rowCS] := by
  refine ⟨fun results => rfl, ?_, ?_, by decide⟩
  · intro mf results h
    simp only [applyMajorFilter]
    rw [h]
    simp
  · intro mf results r hne
    have hlen : (jsTrim mf).length > 0 := by
      rcases hmk : jsTrim mf with ⟨data⟩
      cases data with
      | nil => exact absurd hmk (by simpa using hne)
      | cons c cs => simp [String.length]
    simp only [applyMajorFilter, hlen, if_true, List.mem_filter, beq_iff_eq]


/-- Witness for C8: the membership characterisation applied at the
concrete filter `"cs"` and row `rowCS`. -/
theorem majorFilter_exact_case_insensitive_witness :
    rowCS ∈ applyMajorFilter (some "cs") [rowCS, rowECE] ↔
      rowCS ∈ [rowCS, rowECE] ∧ jsToLower rowCS.major = jsToLower (jsTrim "cs") :=
  majorFilter_exact_case_insensitive.2.2.1 "cs" [rowCS, rowECE] rowCS (by decide)

/-- C9. `setAvailability` stores exactly the submitted values (wrapping a
single string into a one-element list) with no deduplication: submitting
`["T1", "T1"]` stores a duplicated slot, `overlappingAvailability`
against a user available at `T1` lists the slot twice, and the suggested
match score counts it twice (score `3` = 1 mutual course + 2 overlap
occurrences). -/
theorem setAvailability_no_dedup :
    (∀ (u : User) (l : List String), (setAvailability u (Sum.inl l)).availability = l)
  ∧ (∀ (u : User) (s : String), (setAvailability u (Sum.inr s)).availability = [s])
  ∧ ¬((setAvailability demoA (Sum.inl ["T1", "T1"])).availability).Nodup
  ∧ overlappingAvailability (setAvailability demoA (Sum.inl ["T1", "T1"])) demoB
      = ["T1", "T1"]
  ∧ (suggestedMatches (setAvailability demoA (Sum.inl ["T1", "T1"])) [demoB]).map
      (fun m => m.score) = [3] := by
  refine ⟨fun u l => rfl, fun u s => rfl, by decide, by decide, ?_⟩
  have h : matchEntries (setAvailability demoA (Sum.inl ["T1", "T1"])) [demoB]
      = [{ id := 2, name := "B", major := "ECE", mutualCourses := ["MATH1"],
           overlappingAvailability := ["T1", "T1"], score := 3 }] := by decide
  rw [suggestedMatches, h, List.mergeSort_singleton]
  rfl

/-- C10. `GET /users.json` returns per user exactly
`{id, username, name, major}` — in particular it is unchanged under any
change of password hash, courses or availability — and
`GET /requests.json` returns as `incoming`/`outgoing` exactly the full
ledger records whose `toUserId`/`fromUserId` is the user's id. -/
theorem json_views :
    (∀ users : List User, usersJson users
        = users.map (fun u => { id := u.id, username := u.username, name := u.name,
                                major := u.major }))
  ∧ (∀ (u : User) (p : String) (c av : List String),
        usersJson [{ u with password := p, courses := c, availability := av }]
          = usersJson [u])
  ∧ (∀ (st : AppState) (user : User) (r : SessionRequest),
        (r ∈ (requestsJson st user).incoming ↔
            r ∈ st.sessionRequests ∧ r.toUserId = user.id)
      ∧ (r ∈ (requestsJson st user).outgoing ↔
            r ∈ st.sessionRequests ∧ r.fromUserId = user.id)) := by
  refine ⟨fun users => rfl, fun u p c av => rfl, ?_⟩
  intro st user r
  constructor
  · simp [requestsJson, List.mem_filter]
  · simp [requestsJson, List.mem_filter]

/-- Witness for C9: the theorem applied at the concrete duplicated input. -/
theorem setAvailability_no_dedup_witness :
    (setAvailability demoA (Sum.inl ["T1", "T1"])).availability = ["T1", "T1"] :=
  setAvailability_no_dedup.1 demoA ["T1", "T1"]

/-- Witness for C10: the incoming-view characterisation applied at the
concrete state, user and request. -/
theorem json_views_witness :
    demoPendingReq ∈ (requestsJson demoStatePending demoB).incoming ↔
      demoPendingReq ∈ demoStatePending.sessionRequests ∧
        demoPendingReq.toUserId = demoB.id :=
  (json_views.2.2 demoStatePending demoB demoPendingReq).1

end StudyBuddy
